import Mathlib

/-!
Shallow embedding of the FastAPI item-management service
(`src/main.py`, `src/models.py`).

Python is dynamically typed and pydantic's `model_copy(update=...)` performs
no validation, so a stored `Item` field annotated `str` can in fact hold
`None` at runtime (a PATCH body may carry an explicit `null` for an optional
field, which survives `model_dump(exclude_unset=True)`).  The embedding
therefore gives each payload-carried `Item` field the type `Option _`:
`none` models the Python value `None`, `some v` a proper value.

Floating-point prices are modelled by `ℚ`; the claims under study only use
order comparisons on prices, which `Float` and `ℚ` decide identically on the
literals involved.
-/

namespace ItemApi

/-- Runtime representation of an `Item` record (models.py, class `Item`).
Fields other than `id` are `Option`-typed because Python can store `None`
in them (see module docstring). -/
structure Item where
  id : Int
  name : Option String
  description : Option String
  price : Option ℚ
  quantity : Option Int
  deriving Repr, DecidableEq

/-- The field constraints declared on `Item` in models.py:
`id > 0`, `name` a string of length 3–100, `description` absent or of
length ≤ 300, `price > 0`, `quantity ≥ 0`. -/
def Item.validB (it : Item) : Bool :=
  decide (0 < it.id) &&
  (match it.name with
   | some s => decide (3 ≤ s.length) && decide (s.length ≤ 100)
   | none => false) &&
  (match it.description with
   | some d => decide (d.length ≤ 300)
   | none => true) &&
  (match it.price with
   | some p => decide (0 < p)
   | none => false) &&
  (match it.quantity with
   | some q => decide (0 ≤ q)
   | none => false)

/-- An `ItemCreate` payload after pydantic body parsing (models.py,
`ItemCreate` / `ItemBase`): `name` and `price` are required, `description`
optional, `quantity` defaults to 1 during parsing so it is always present
here. -/
structure ItemCreate where
  name : String
  description : Option String
  price : ℚ
  quantity : Int
  deriving Repr, DecidableEq

/-- The pydantic `Field` constraints on `ItemCreate`: name length 3–100,
description length ≤ 300 when present, price > 0, quantity ≥ 0.
FastAPI enforces these before the handler runs. -/
def ItemCreate.validB (p : ItemCreate) : Bool :=
  decide (3 ≤ p.name.length) && decide (p.name.length ≤ 100) &&
  (match p.description with
   | some d => decide (d.length ≤ 300)
   | none => true) &&
  decide (0 < p.price) &&
  decide (0 ≤ p.quantity)

/-- An `ItemUpdate` payload (models.py, `ItemUpdate`): every field optional.
The outer `Option` records whether the field was present in the request
body at all (pydantic "set" state, observed by
`model_dump(exclude_unset=True)`); the inner `Option` is the field's value,
`none` being an explicit JSON `null`. -/
structure ItemUpdate where
  name : Option (Option String)
  description : Option (Option String)
  price : Option (Option ℚ)
  quantity : Option (Option Int)
  deriving Repr, DecidableEq

/-- The pydantic constraints on `ItemUpdate`: each field is `T | None`, so
an absent field or an explicit `null` passes, and a present proper value
must satisfy the `Field` constraints. -/
def ItemUpdate.validB (u : ItemUpdate) : Bool :=
  (match u.name with
   | some (some s) => decide (3 ≤ s.length) && decide (s.length ≤ 100)
   | _ => true) &&
  (match u.description with
   | some (some d) => decide (d.length ≤ 300)
   | _ => true) &&
  (match u.price with
   | some (some p) => decide (0 < p)
   | _ => true) &&
  (match u.quantity with
   | some (some q) => decide (0 ≤ q)
   | _ => true)

/-- `PaginationParams` (models.py): `skip ≥ 0` is encoded by `ℕ`;
`limit` is validated separately (`validB`). -/
structure PaginationParams where
  skip : Nat
  limit : Nat
  deriving Repr, DecidableEq

/-- The `Field`/`Query` constraints on pagination: `1 ≤ limit ≤ 100`
(`skip ≥ 0` already holds by the `ℕ` encoding). -/
def PaginationParams.validB (pg : PaginationParams) : Bool :=
  decide (1 ≤ pg.limit) && decide (pg.limit ≤ 100)

/-- `ItemFilters` (models.py): all fields optional query parameters. -/
structure ItemFilters where
  name : Option String
  min_price : Option ℚ
  max_price : Option ℚ
  in_stock : Option Bool
  deriving Repr, DecidableEq

/-- Construction of `ItemFilters` as FastAPI performs it for
`GET /items`: the `Query(ge=0)` checks on `min_price`/`max_price`
(main.py, `get_item_filters`), then the model validator
`validate_price_range` (models.py) rejecting `min_price > max_price`
when both are present.  Any failure is a request-validation error raised
before the handler body runs. -/
def get_item_filters (name : Option String) (minP maxP : Option ℚ)
    (inStock : Option Bool) : Except String ItemFilters :=
  match minP with
  | some m =>
    if m < 0 then .error "min_price must be greater than or equal to 0"
    else
      match maxP with
      | some M =>
        if M < 0 then .error "max_price must be greater than or equal to 0"
        else if m > M then
          .error "Minimum price must be less than or equal to maximum price"
        else .ok ⟨name, minP, maxP, inStock⟩
      | none => .ok ⟨name, minP, maxP, inStock⟩
  | none =>
    match maxP with
    | some M =>
      if M < 0 then .error "max_price must be greater than or equal to 0"
      else .ok ⟨name, minP, maxP, inStock⟩
    | none => .ok ⟨name, minP, maxP, inStock⟩

/-- The in-memory store: the module-level `items_db` dict together with
the `_next_id` counter (main.py). -/
structure Store where
  nextId : Int
  db : List (Int × Item)
  deriving Repr, DecidableEq

/-- `items_db[item_id]` / `item_id in items_db`: lookup in insertion
order (Python dict). -/
def dbGet : List (Int × Item) → Int → Option Item
  | [], _ => none
  | (k, v) :: rest, n => if k = n then some v else dbGet rest n

/-- `item_id in items_db`. -/
def dbHas (db : List (Int × Item)) (n : Int) : Bool :=
  db.any (fun p => p.1 == n)

/-- `items_db[item_id] = v`: Python dict assignment — an existing key keeps
its insertion position, a fresh key is appended at the end. -/
def dbSet (db : List (Int × Item)) (n : Int) (v : Item) : List (Int × Item) :=
  if dbHas db n then db.map (fun p => if p.1 = n then (n, v) else p)
  else db ++ [(n, v)]

/-- `items_db.pop(item_id)`'s removal effect. -/
def dbRemove (db : List (Int × Item)) (n : Int) : List (Int × Item) :=
  db.filter (fun p => p.1 != n)

/-- Errors the handlers surface (main.py exception handlers):
`ItemNotFoundError` → 404, pydantic/FastAPI request validation → 422. -/
inductive ApiError where
  | notFound (item_id : Int)
  | validationError
  deriving Repr, DecidableEq

/-- `get_next_id` (main.py): returns the counter and increments it. -/
def get_next_id (s : Store) : Int × Store :=
  (s.nextId, { s with nextId := s.nextId + 1 })

/-- The `Item` built by `Item(id=item_id, **item.model_dump())` from a
parsed `ItemCreate` payload. -/
def mkItem (item_id : Int) (p : ItemCreate) : Item :=
  { id := item_id, name := some p.name, description := p.description,
    price := some p.price, quantity := some p.quantity }

/-- `POST /items` (`create_item`, main.py): FastAPI validates the body
first (422 without running the handler, hence without touching the
store); the handler then allocates an id and inserts the new item. -/
def create_item (p : ItemCreate) (s : Store) : Except ApiError Item × Store :=
  if p.validB then
    let (item_id, s1) := get_next_id s
    let new_item := mkItem item_id p
    (.ok new_item, { s1 with db := dbSet s1.db item_id new_item })
  else (.error .validationError, s)

/-- `GET /items/{item_id}` (`get_item`, main.py). -/
def get_item (item_id : Int) (s : Store) : Except ApiError Item :=
  match dbGet s.db item_id with
  | some it => .ok it
  | none => .error (.notFound item_id)

/-- `PUT /items/{item_id}` (`replace_item`, main.py): body validation
first (FastAPI), then the not-found check, then a full overwrite keeping
only the id. -/
def replace_item (item_id : Int) (p : ItemCreate) (s : Store) :
    Except ApiError Item × Store :=
  if p.validB then
    if dbHas s.db item_id then
      let it := mkItem item_id p
      (.ok it, { s with db := dbSet s.db item_id it })
    else (.error (.notFound item_id), s)
  else (.error .validationError, s)

/-- `items_db[item_id].model_copy(update=item.model_dump(exclude_unset=True))`:
each field present in the request body (outer `some`) overwrites the stored
field with its value — including an explicit `null` (inner `none`) — with
no re-validation; absent fields are untouched. -/
def applyUpdate (it : Item) (u : ItemUpdate) : Item :=
  { it with
    name := u.name.getD it.name
    description := u.description.getD it.description
    price := u.price.getD it.price
    quantity := u.quantity.getD it.quantity }

/-- `PATCH /items/{item_id}` (`update_item`, main.py). -/
def update_item (item_id : Int) (u : ItemUpdate) (s : Store) :
    Except ApiError Item × Store :=
  if u.validB then
    match dbGet s.db item_id with
    | some it =>
      let updated := applyUpdate it u
      (.ok updated, { s with db := dbSet s.db item_id updated })
    | none => (.error (.notFound item_id), s)
  else (.error .validationError, s)

/-- Leading-match test on character lists: Python's substring search
compares the needle against each suffix of the haystack. -/
def leadMatch : List Char → List Char → Bool
  | [], _ => true
  | _ :: _, [] => false
  | a :: as, b :: bs => a == b && leadMatch as bs

/-- `needle in hay` on character lists. -/
def hasSub (needle : List Char) : List Char → Bool
  | [] => needle.isEmpty
  | b :: bs => leadMatch needle (b :: bs) || hasSub needle bs

/-- Python `filters.name.lower() in i.name.lower()`: case-insensitive
substring containment.  `str.lower()` is modelled as a character-wise
lowercase map over the string's characters (which is also how Lean's own
`String.toLower` is defined, namely `s.map Char.toLower`). -/
def strContainsCI (hay needle : String) : Bool :=
  hasSub (needle.data.map Char.toLower) (hay.data.map Char.toLower)

/-- A list comprehension `[i for i in items if pred(i)]` whose predicate may
raise (`none`), as happens when a field read by the predicate holds the
Python value `None`. -/
def optFilter (p : α → Option Bool) : List α → Option (List α)
  | [] => some []
  | a :: as =>
    match p a, optFilter p as with
    | some b, some rest => some (if b then a :: rest else rest)
    | _, _ => none

/-- Step 1 of `get_items` (main.py): `if filters.name:` — the filter is
applied only when `name` is truthy (present and nonempty); the predicate
reads `i.name`, raising when that field is `None`. -/
def filterName (fn? : Option String) (items : List Item) : Option (List Item) :=
  match fn? with
  | some fn =>
    if fn = "" then some items
    else optFilter (fun i => i.name.map (fun nm => strContainsCI nm fn)) items
  | none => some items

/-- Step 2 of `get_items`: `if filters.min_price is not None:` keep items
with `i.price >= filters.min_price`. -/
def filterMin (m? : Option ℚ) (items : List Item) : Option (List Item) :=
  match m? with
  | some m => optFilter (fun i => i.price.map (fun p => decide (m ≤ p))) items
  | none => some items

/-- Step 3 of `get_items`: `if filters.max_price is not None:` keep items
with `i.price <= filters.max_price`. -/
def filterMax (M? : Option ℚ) (items : List Item) : Option (List Item) :=
  match M? with
  | some M => optFilter (fun i => i.price.map (fun p => decide (p ≤ M))) items
  | none => some items

/-- Step 4 of `get_items`: `if filters.in_stock is not None:` keep items
with `(i.quantity > 0) == filters.in_stock`. -/
def filterStock (b? : Option Bool) (items : List Item) : Option (List Item) :=
  match b? with
  | some b => optFilter (fun i => i.quantity.map (fun q => decide (0 < q) == b)) items
  | none => some items

/-- `GET /items` (`get_items`, main.py): filters in source order, then the
slice `items[skip : skip + limit]`, which for the validated nonnegative
`skip` and positive `limit` is drop-then-take. -/
def get_items (pg : PaginationParams) (f : ItemFilters) (s : Store) :
    Option (List Item) := do
  let items0 := s.db.map Prod.snd
  let items1 ← filterName f.name items0
  let items2 ← filterMin f.min_price items1
  let items3 ← filterMax f.max_price items2
  let items4 ← filterStock f.in_stock items3
  pure ((items4.drop pg.skip).take pg.limit)

/-- Query-parameter validity for `ItemFilters` as a predicate (the state
`get_item_filters` accepts): prices nonnegative and `min_price ≤ max_price`
when both are present. -/
def ItemFilters.validB (f : ItemFilters) : Bool :=
  (match f.min_price with | some m => decide (0 ≤ m) | none => true) &&
  (match f.max_price with | some M => decide (0 ≤ M) | none => true) &&
  (match f.min_price, f.max_price with
   | some m, some M => decide (m ≤ M)
   | _, _ => true)

/-! ### The list pipeline as the spec words it

The following definitions transcribe section 4.2 of the spec ("Order of
operations"), for comparison with `get_items` above.  The spec's items
always satisfy the data model, so the field accessors below default the
(per the spec impossible) `None` case. -/

/-- The spec's view of an item's name (always a string per the data model). -/
def specNameD (it : Item) : String := it.name.getD ""

/-- The spec's view of an item's price. -/
def specPriceD (it : Item) : ℚ := it.price.getD 0

/-- The spec's view of an item's quantity. -/
def specQtyD (it : Item) : Int := it.quantity.getD 0

/-- Spec step 1: "If `filters.name` set: keep items whose `name` contains
the filter string, case-insensitive substring match." -/
def specFilterName (fn? : Option String) (items : List Item) : List Item :=
  match fn? with
  | some fn => items.filter (fun i => strContainsCI (specNameD i) fn)
  | none => items

/-- Spec step 2: "If `filters.min_price` set: keep items with
`price >= min_price`." -/
def specFilterMin (m? : Option ℚ) (items : List Item) : List Item :=
  match m? with
  | some m => items.filter (fun i => decide (m ≤ specPriceD i))
  | none => items

/-- Spec step 3: "If `filters.max_price` set: keep items with
`price <= max_price`." -/
def specFilterMax (M? : Option ℚ) (items : List Item) : List Item :=
  match M? with
  | some M => items.filter (fun i => decide (specPriceD i ≤ M))
  | none => items

/-- Spec step 4: "If `filters.in_stock` set: keep items where
`(quantity > 0) == in_stock`." -/
def specFilterStock (b? : Option Bool) (items : List Item) : List Item :=
  match b? with
  | some b => items.filter (fun i => decide (0 < specQtyD i) == b)
  | none => items

/-- Spec steps 1–5 composed: filters in order, then the slice
`[skip : skip+limit]`. -/
def spec_apply (items : List Item) (f : ItemFilters) (pg : PaginationParams) :
    List Item :=
  let s1 := specFilterName f.name items
  let s2 := specFilterMin f.min_price s1
  let s3 := specFilterMax f.max_price s2
  let s4 := specFilterStock f.in_stock s3
  (s4.drop pg.skip).take pg.limit

/-- The endpoint dependency chain for `GET /items`: FastAPI first resolves
`get_item_filters` (raising 422 on failure, without running the handler),
then runs the handler body. -/
def get_items_endpoint (pg : PaginationParams) (name : Option String)
    (minP maxP : Option ℚ) (inStock : Option Bool) (s : Store) :
    Except String (Option (List Item)) :=
  match get_item_filters name minP maxP inStock with
  | .error e => .error e
  | .ok f => .ok (get_items pg f s)

/-- The body of `DELETE /items/{item_id}`'s 200 response
(`ItemResponse`, models.py). -/
structure ItemResponse where
  message : String
  item : Option Item
  deriving Repr, DecidableEq

/-- `DELETE /items/{item_id}` (`delete_item`, main.py). -/
def delete_item (item_id : Int) (s : Store) :
    Except ApiError ItemResponse × Store :=
  match dbGet s.db item_id with
  | some it =>
    (.ok ⟨s!"Item with ID {item_id} has been deleted successfully", some it⟩,
     { s with db := dbRemove s.db item_id })
  | none => (.error (.notFound item_id), s)

/-! ### Operation sequences -/

/-- A mutating request accepted by the HTTP layer. -/
inductive Op where
  | create (p : ItemCreate)
  | replace (item_id : Int) (p : ItemCreate)
  | update (item_id : Int) (u : ItemUpdate)
  | delete (item_id : Int)

/-- The state transformation of one request. -/
def stepStore : Op → Store → Store
  | .create p, s => (create_item p s).2
  | .replace n p, s => (replace_item n p s).2
  | .update n u, s => (update_item n u s).2
  | .delete n, s => (delete_item n s).2

/-- Run a request sequence from a state. -/
def runOps : List Op → Store → Store
  | [], s => s
  | op :: ops, s => runOps ops (stepStore op s)

/-- The ids returned by the successful create operations of a request
sequence, in order. -/
def createdIds : List Op → Store → List Int
  | [], _ => []
  | .create p :: ops, s =>
    match (create_item p s).1 with
    | .ok it => it.id :: createdIds ops (stepStore (.create p) s)
    | .error _ => createdIds ops (stepStore (.create p) s)
  | op :: ops, s => createdIds ops (stepStore op s)

/-- Every create payload in the sequence passes validation. -/
def createPayloadsValid : List Op → Bool
  | [] => true
  | .create p :: ops => p.validB && createPayloadsValid ops
  | _ :: ops => createPayloadsValid ops

/-! ### Association-list (Python dict) lemmas -/

theorem dbHas_eq_false_iff (db : List (Int × Item)) (n : Int) :
    dbHas db n = false ↔ dbGet db n = none := by
  induction db with
  | nil => simp [dbHas, dbGet]
  | cons hd tl ih =>
    obtain ⟨k, v⟩ := hd
    by_cases hk : k = n
    · subst hk
      simp [dbHas, dbGet]
    · simp only [dbHas, List.any_cons] at *
      simp [dbGet, hk, beq_iff_eq, ih]

theorem dbGet_append (l1 l2 : List (Int × Item)) (n : Int) :
    dbGet (l1 ++ l2) n =
      match dbGet l1 n with
      | some v => some v
      | none => dbGet l2 n := by
  induction l1 with
  | nil => simp [dbGet]
  | cons hd tl ih =>
    obtain ⟨k, v⟩ := hd
    by_cases hk : k = n
    · subst hk; simp [dbGet]
    · simp [dbGet, hk, ih]

theorem dbGet_mapRepl (db : List (Int × Item)) (n : Int) (v : Item) :
    dbGet (db.map (fun p => if p.1 = n then (n, v) else p)) n =
      (dbGet db n).map (fun _ => v) := by
  induction db with
  | nil => simp [dbGet]
  | cons hd tl ih =>
    obtain ⟨k, w⟩ := hd
    rw [List.map_cons]
    by_cases hk : k = n
    · subst hk
      rw [if_pos (show (k, w).1 = k from rfl)]
      simp [dbGet]
    · rw [if_neg (show ¬(k, w).1 = n from hk)]
      simp [dbGet, hk, ih]

theorem dbGet_mapRepl_ne (db : List (Int × Item)) {m n : Int} (v : Item)
    (h : m ≠ n) :
    dbGet (db.map (fun p => if p.1 = n then (n, v) else p)) m = dbGet db m := by
  induction db with
  | nil => simp [dbGet]
  | cons hd tl ih =>
    obtain ⟨k, w⟩ := hd
    rw [List.map_cons]
    by_cases hk : k = n
    · subst hk
      rw [if_pos (show (k, w).1 = k from rfl)]
      simp [dbGet, (Ne.symm h : k ≠ m), ih]
    · rw [if_neg (show ¬(k, w).1 = n from hk)]
      by_cases hm : k = m
      · subst hm; simp [dbGet]
      · simp [dbGet, hm, ih]

theorem dbGet_dbSet_self (db : List (Int × Item)) (n : Int) (v : Item) :
    dbGet (dbSet db n v) n = some v := by
  unfold dbSet
  by_cases h : dbHas db n
  · rw [if_pos h, dbGet_mapRepl]
    rcases hg : dbGet db n with _ | w
    · rw [← dbHas_eq_false_iff] at hg
      rw [h] at hg
      exact absurd hg (by simp)
    · rfl
  · rw [if_neg h, dbGet_append]
    rw [Bool.not_eq_true] at h
    rw [(dbHas_eq_false_iff db n).mp h]
    simp [dbGet]

theorem dbGet_dbSet_ne (db : List (Int × Item)) {m n : Int} (v : Item)
    (h : m ≠ n) : dbGet (dbSet db n v) m = dbGet db m := by
  unfold dbSet
  by_cases hh : dbHas db n
  · rw [if_pos hh, dbGet_mapRepl_ne db v h]
  · rw [if_neg hh, dbGet_append]
    rcases hg : dbGet db m with _ | w
    · simp [dbGet, Ne.symm h]
    · rfl

theorem dbGet_dbRemove_self (db : List (Int × Item)) (n : Int) :
    dbGet (dbRemove db n) n = none := by
  induction db with
  | nil => rfl
  | cons hd tl ih =>
    obtain ⟨k, v⟩ := hd
    rw [dbRemove, List.filter_cons]
    by_cases hk : k = n
    · subst hk
      simp only [show ((k, v).1 != k) = false from by simp, if_false]
      rw [dbRemove] at ih
      exact ih
    · simp only [show ((k, v).1 != n) = true from by simp [hk], if_true]
      rw [dbRemove] at ih
      simpa [dbGet, hk] using ih

theorem dbGet_dbRemove_ne (db : List (Int × Item)) {m n : Int}
    (h : m ≠ n) : dbGet (dbRemove db n) m = dbGet db m := by
  induction db with
  | nil => rfl
  | cons hd tl ih =>
    obtain ⟨k, v⟩ := hd
    rw [dbRemove, List.filter_cons]
    by_cases hk : k = n
    · subst hk
      simp only [show ((k, v).1 != k) = false from by simp, if_false]
      rw [dbRemove] at ih
      simpa [dbGet, (Ne.symm h : k ≠ m)] using ih
    · simp only [show ((k, v).1 != n) = true from by simp [hk], if_true]
      rw [dbRemove] at ih
      by_cases hm : k = m
      · subst hm; simp [dbGet]
      · simpa [dbGet, hm] using ih

/-! ### The claims -/

/-- Claim C7: a create payload with `price ≤ 0` or `quantity < 0` fails
validation, and the operation returns the store state it was given —
no id is allocated (the counter is untouched, so the next id returned is
as if the failed call had not happened) and the contents are unchanged. -/
theorem c7_invalid_create_rejected (p : ItemCreate) (s : Store)
    (h : p.price ≤ 0 ∨ p.quantity < 0) :
    create_item p s = (.error .validationError, s) := by
  have hv : p.validB = false := by
    rcases h with h | h
    · have hnp : ¬ (0 < p.price) := not_lt.mpr h
      simp [ItemCreate.validB, hnp]
    · have hnq : ¬ (0 ≤ p.quantity) := not_le.mpr h
      simp [ItemCreate.validB, hnq]
  unfold create_item
  rw [hv]
  simp

/-- Closed instance of the C7 theorem at a negative price. -/
theorem c7_witness :
    ((⟨"Widget", none, -1, 1⟩ : ItemCreate).price ≤ 0 ∨
      (⟨"Widget", none, -1, 1⟩ : ItemCreate).quantity < 0) ∧
    create_item ⟨"Widget", none, -1, 1⟩ ⟨1, []⟩ =
      (.error .validationError, ⟨1, []⟩) :=
  ⟨Or.inl (by norm_num),
   c7_invalid_create_rejected ⟨"Widget", none, -1, 1⟩ ⟨1, []⟩ (Or.inl (by norm_num))⟩

/-- Claim C8: deleting an id that is not in the store returns NotFound and
leaves the store completely unchanged (same size and same contents). -/
theorem c8_delete_missing (s : Store) (n : Int)
    (h : dbGet s.db n = none) :
    delete_item n s = (.error (.notFound n), s) := by
  unfold delete_item
  rw [h]

/-- Closed instance of the C8 theorem on an empty store. -/
theorem c8_witness :
    dbGet (⟨1, []⟩ : Store).db 7 = none ∧
    delete_item 7 ⟨1, []⟩ = (.error (.notFound 7), ⟨1, []⟩) :=
  ⟨rfl, c8_delete_missing ⟨1, []⟩ 7 rfl⟩

/-- Claim C9: deleting an id that is in the store removes that item,
returns a success message together with the exact prior value, and a
subsequent get on that id returns NotFound. -/
theorem c9_delete_existing (s : Store) (n : Int) (it : Item)
    (h : dbGet s.db n = some it) :
    delete_item n s =
      (.ok ⟨s!"Item with ID {n} has been deleted successfully", some it⟩,
       { s with db := dbRemove s.db n }) ∧
    get_item n (delete_item n s).2 = .error (.notFound n) := by
  have hd : delete_item n s =
      (.ok ⟨s!"Item with ID {n} has been deleted successfully", some it⟩,
       { s with db := dbRemove s.db n }) := by
    unfold delete_item
    rw [h]
  refine ⟨hd, ?_⟩
  rw [hd]
  unfold get_item
  simp [dbGet_dbRemove_self]

/-- Closed instance of the C9 theorem at a one-item store. -/
theorem c9_witness :
    dbGet (⟨2, [(1, ⟨1, some "Widget", none, some 5, some 1⟩)]⟩ : Store).db 1 =
      some ⟨1, some "Widget", none, some 5, some 1⟩ ∧
    get_item 1 (delete_item 1 ⟨2, [(1, ⟨1, some "Widget", none, some 5, some 1⟩)]⟩).2 =
      .error (.notFound 1) :=
  ⟨rfl,
   (c9_delete_existing ⟨2, [(1, ⟨1, some "Widget", none, some 5, some 1⟩)]⟩ 1
     ⟨1, some "Widget", none, some 5, some 1⟩ rfl).2⟩

/-- Claim C10: if a create with a valid payload returns item `I`, then an
immediately subsequent get on `I.id` succeeds and returns exactly `I`. -/
theorem c10_create_then_get (p : ItemCreate) (s : Store)
    (h : p.validB = true) :
    (create_item p s).1 = .ok (mkItem s.nextId p) ∧
    get_item (mkItem s.nextId p).id (create_item p s).2 = .ok (mkItem s.nextId p) := by
  unfold create_item get_next_id
  rw [h]
  refine ⟨rfl, ?_⟩
  show get_item s.nextId _ = _
  unfold get_item
  simp [dbGet_dbSet_self]

/-- Closed instance of the C10 theorem. -/
theorem c10_witness :
    ItemCreate.validB ⟨"Widget", none, 5, 1⟩ = true ∧
    get_item (mkItem (1 : Int) ⟨"Widget", none, 5, 1⟩).id
      (create_item ⟨"Widget", none, 5, 1⟩ ⟨1, []⟩).2 =
      .ok (mkItem 1 ⟨"Widget", none, 5, 1⟩) :=
  ⟨by decide, (c10_create_then_get ⟨"Widget", none, 5, 1⟩ ⟨1, []⟩ (by decide)).2⟩

/-- Claim C1 (refuted; code bug): the store invariant fails.  A PATCH body
carrying an explicit `null` for `name` passes `ItemUpdate` validation
(`name` is `str | None`), survives `model_dump(exclude_unset=True)`, and
`model_copy(update=...)` applies it without re-validation — so after a
valid create followed by this accepted partial update, the stored (and
reader-visible) item has no name and violates its field constraints. -/
theorem c1_patch_null_breaks_invariant :
    ItemUpdate.validB ⟨some none, none, none, none⟩ = true ∧
    ItemCreate.validB ⟨"Widget", none, 5, 1⟩ = true ∧
    dbGet ((update_item 1 ⟨some none, none, none, none⟩
        (create_item ⟨"Widget", none, 5, 1⟩ ⟨1, []⟩).2).2).db 1 =
      some ⟨1, none, none, some 5, some 1⟩ ∧
    Item.validB ⟨1, none, none, some 5, some 1⟩ = false := by
  decide

/-- Claim C4: a partial update carrying only a (valid) `price: X` sets the
stored item's price to `X`, leaves its id, name, description and quantity
exactly unchanged, and leaves every other stored item unchanged. -/
theorem c4_patch_price_only (s : Store) (n : Int) (it : Item) (X : ℚ)
    (hit : dbGet s.db n = some it) (hX : 0 < X) :
    update_item n ⟨none, none, some (some X), none⟩ s =
      (.ok { it with price := some X },
       { s with db := dbSet s.db n { it with price := some X } }) ∧
    dbGet (update_item n ⟨none, none, some (some X), none⟩ s).2.db n =
      some { it with price := some X } ∧
    ∀ m : Int, m ≠ n →
      dbGet (update_item n ⟨none, none, some (some X), none⟩ s).2.db m =
        dbGet s.db m := by
  have hv : ItemUpdate.validB ⟨none, none, some (some X), none⟩ = true := by
    simp [ItemUpdate.validB, hX]
  have happ : applyUpdate it ⟨none, none, some (some X), none⟩ =
      { it with price := some X } := by
    simp [applyUpdate]
  have hu : update_item n ⟨none, none, some (some X), none⟩ s =
      (.ok { it with price := some X },
       { s with db := dbSet s.db n { it with price := some X } }) := by
    unfold update_item
    rw [hv, if_pos rfl, hit]
    simp [happ]
  refine ⟨hu, ?_, ?_⟩
  · rw [hu]
    exact dbGet_dbSet_self s.db n _
  · intro m hm
    rw [hu]
    exact dbGet_dbSet_ne s.db _ hm

/-- Closed instance of the C4 theorem at a concrete two-item store. -/
theorem c4_witness :
    dbGet (⟨3, [(1, ⟨1, some "Widget", none, some 5, some 1⟩),
                (2, ⟨2, some "Gadget", some "nice", some 7, some 2⟩)]⟩ : Store).db 1 =
      some ⟨1, some "Widget", none, some 5, some 1⟩ ∧
    (0 : ℚ) < 9 ∧
    dbGet (update_item 1 ⟨none, none, some (some 9), none⟩
        ⟨3, [(1, ⟨1, some "Widget", none, some 5, some 1⟩),
             (2, ⟨2, some "Gadget", some "nice", some 7, some 2⟩)]⟩).2.db 1 =
      some ⟨1, some "Widget", none, some 9, some 1⟩ ∧
    dbGet (update_item 1 ⟨none, none, some (some 9), none⟩
        ⟨3, [(1, ⟨1, some "Widget", none, some 5, some 1⟩),
             (2, ⟨2, some "Gadget", some "nice", some 7, some 2⟩)]⟩).2.db 2 =
      dbGet (⟨3, [(1, ⟨1, some "Widget", none, some 5, some 1⟩),
                  (2, ⟨2, some "Gadget", some "nice", some 7, some 2⟩)]⟩ : Store).db 2 :=
  ⟨rfl, by norm_num,
   (c4_patch_price_only
     ⟨3, [(1, ⟨1, some "Widget", none, some 5, some 1⟩),
          (2, ⟨2, some "Gadget", some "nice", some 7, some 2⟩)]⟩
     1 ⟨1, some "Widget", none, some 5, some 1⟩ 9 rfl (by norm_num)).2.1,
   (c4_patch_price_only
     ⟨3, [(1, ⟨1, some "Widget", none, some 5, some 1⟩),
          (2, ⟨2, some "Gadget", some "nice", some 7, some 2⟩)]⟩
     1 ⟨1, some "Widget", none, some 5, some 1⟩ 9 rfl (by norm_num)).2.2 2 (by decide)⟩

/-- Claim C5: replace with a valid full payload `P` stores an item whose
name, description (reset to absent when `P` omits it), price and quantity
come entirely from `P` while the id stays `n`; when `n` is absent the
operation fails with NotFound and the store is unchanged. -/
theorem c5_put_replaces (s : Store) (n : Int) (p : ItemCreate)
    (hp : p.validB = true) :
    (dbHas s.db n = true →
      replace_item n p s =
        (.ok (mkItem n p), { s with db := dbSet s.db n (mkItem n p) }) ∧
      dbGet (replace_item n p s).2.db n = some (mkItem n p)) ∧
    (dbHas s.db n = false →
      replace_item n p s = (.error (.notFound n), s)) := by
  constructor
  · intro hhas
    have hr : replace_item n p s =
        (.ok (mkItem n p), { s with db := dbSet s.db n (mkItem n p) }) := by
      unfold replace_item
      rw [hp, if_pos rfl, hhas, if_pos rfl]
    refine ⟨hr, ?_⟩
    rw [hr]
    exact dbGet_dbSet_self s.db n _
  · intro hmiss
    unfold replace_item
    rw [hp, if_pos rfl, hmiss]
    simp

/-- Closed instance of the C5 theorem, both the present and absent id cases. -/
theorem c5_witness :
    ItemCreate.validB ⟨"Gadget", none, 7, 2⟩ = true ∧
    dbHas (⟨2, [(1, ⟨1, some "Widget", some "old", some 5, some 1⟩)]⟩ : Store).db 1 = true ∧
    dbGet (replace_item 1 ⟨"Gadget", none, 7, 2⟩
        ⟨2, [(1, ⟨1, some "Widget", some "old", some 5, some 1⟩)]⟩).2.db 1 =
      some (mkItem 1 ⟨"Gadget", none, 7, 2⟩) ∧
    replace_item 9 ⟨"Gadget", none, 7, 2⟩
        ⟨2, [(1, ⟨1, some "Widget", some "old", some 5, some 1⟩)]⟩ =
      (.error (.notFound 9), ⟨2, [(1, ⟨1, some "Widget", some "old", some 5, some 1⟩)]⟩) :=
  ⟨by decide, by decide,
   ((c5_put_replaces ⟨2, [(1, ⟨1, some "Widget", some "old", some 5, some 1⟩)]⟩ 1
      ⟨"Gadget", none, 7, 2⟩ (by decide)).1 (by decide)).2,
   (c5_put_replaces ⟨2, [(1, ⟨1, some "Widget", some "old", some 5, some 1⟩)]⟩ 9
      ⟨"Gadget", none, 7, 2⟩ (by decide)).2 (by decide)⟩

/-- Claim C6: when both `min_price` and `max_price` are supplied with
`min_price > max_price`, constructing the filters is rejected as a
validation error, and the list endpoint returns an error without any
filtering having produced a result. -/
theorem c6_min_above_max_rejected (s : Store) (pg : PaginationParams)
    (name : Option String) (inStock : Option Bool) (m M : ℚ)
    (h : m > M) :
    (∃ e, get_item_filters name (some m) (some M) inStock = .error e) ∧
    (∃ e, get_items_endpoint pg name (some m) (some M) inStock s = .error e) := by
  have hred : get_item_filters name (some m) (some M) inStock =
      (if m < 0 then .error "min_price must be greater than or equal to 0"
       else if M < 0 then .error "max_price must be greater than or equal to 0"
       else if m > M then
         .error "Minimum price must be less than or equal to maximum price"
       else .ok ⟨name, some m, some M, inStock⟩) := rfl
  have hfil : ∃ e, get_item_filters name (some m) (some M) inStock = .error e := by
    rw [hred]
    by_cases hm : m < 0
    · rw [if_pos hm]; exact ⟨_, rfl⟩
    · rw [if_neg hm]
      by_cases hM : M < 0
      · rw [if_pos hM]; exact ⟨_, rfl⟩
      · rw [if_neg hM, if_pos h]; exact ⟨_, rfl⟩
  obtain ⟨e, he⟩ := hfil
  refine ⟨⟨e, he⟩, ⟨e, ?_⟩⟩
  unfold get_items_endpoint
  rw [he]

/-- Closed instance of the C6 theorem at `min_price=20`, `max_price=10`. -/
theorem c6_witness :
    (20 : ℚ) > 10 ∧
    (∃ e, get_item_filters none (some 20) (some 10) none = .error e) ∧
    (∃ e, get_items_endpoint ⟨0, 10⟩ none (some 20) (some 10) none ⟨1, []⟩ = .error e) :=
  ⟨by norm_num,
   (c6_min_above_max_rejected ⟨1, []⟩ ⟨0, 10⟩ none none 20 10 (by norm_num)).1,
   (c6_min_above_max_rejected ⟨1, []⟩ ⟨0, 10⟩ none none 20 10 (by norm_num)).2⟩

theorem create_item_fst (p : ItemCreate) (s : Store) :
    (create_item p s).1 =
      if p.validB then .ok (mkItem s.nextId p) else .error .validationError := by
  unfold create_item get_next_id
  by_cases h : p.validB <;> simp [h]

theorem create_item_nextId (p : ItemCreate) (s : Store) :
    (create_item p s).2.nextId = if p.validB then s.nextId + 1 else s.nextId := by
  unfold create_item get_next_id
  by_cases h : p.validB <;> simp [h]

theorem replace_item_nextId (n : Int) (p : ItemCreate) (s : Store) :
    (replace_item n p s).2.nextId = s.nextId := by
  unfold replace_item
  by_cases h : p.validB
  · by_cases hh : dbHas s.db n <;> simp [h, hh]
  · simp [h]

theorem update_item_nextId (n : Int) (u : ItemUpdate) (s : Store) :
    (update_item n u s).2.nextId = s.nextId := by
  unfold update_item
  by_cases h : u.validB
  · rcases hg : dbGet s.db n with _ | it <;> simp [h, hg]
  · simp [h]

theorem delete_item_nextId (n : Int) (s : Store) :
    (delete_item n s).2.nextId = s.nextId := by
  unfold delete_item
  rcases hg : dbGet s.db n with _ | it <;> simp [hg]

theorem stepStore_nextId_mono (op : Op) (s : Store) :
    s.nextId ≤ (stepStore op s).nextId := by
  cases op with
  | create p =>
    simp only [stepStore, create_item_nextId]
    split <;> omega
  | replace n p => simp [stepStore, replace_item_nextId]
  | update n u => simp [stepStore, update_item_nextId]
  | delete n => simp [stepStore, delete_item_nextId]

theorem createdIds_lb (ops : List Op) : ∀ (s : Store), ∀ x ∈ createdIds ops s,
    s.nextId ≤ x := by
  induction ops with
  | nil => intro s x hx; simp [createdIds] at hx
  | cons op ops ih =>
    intro s x hx
    have hmono := stepStore_nextId_mono op s
    cases op with
    | create p =>
      by_cases h : p.validB
      · simp only [createdIds, create_item_fst, h, if_true] at hx
        rcases List.mem_cons.mp hx with h1 | h1
        · simp only [mkItem] at h1
          omega
        · exact le_trans hmono (ih _ x h1)
      · simp only [createdIds, create_item_fst, h, if_false] at hx
        exact le_trans hmono (ih _ x hx)
    | replace n p =>
      simp only [createdIds] at hx
      exact le_trans hmono (ih _ x hx)
    | update n u =>
      simp only [createdIds] at hx
      exact le_trans hmono (ih _ x hx)
    | delete n =>
      simp only [createdIds] at hx
      exact le_trans hmono (ih _ x hx)

theorem createdIds_pairwise (ops : List Op) : ∀ s : Store,
    List.Pairwise (· < ·) (createdIds ops s) := by
  induction ops with
  | nil => intro s; simp [createdIds]
  | cons op ops ih =>
    intro s
    cases op with
    | create p =>
      by_cases h : p.validB
      · simp only [createdIds, create_item_fst, h, if_true]
        refine List.Pairwise.cons ?_ (ih _)
        intro x hx
        have hlb := createdIds_lb ops _ x hx
        have hstep : (stepStore (.create p) s).nextId = s.nextId + 1 := by
          simp [stepStore, create_item_nextId, h]
        simp only [mkItem]
        omega
      · simp only [createdIds, create_item_fst, h, if_false]
        exact ih _
    | replace n p => simp only [createdIds]; exact ih _
    | update n u => simp only [createdIds]; exact ih _
    | delete n => simp only [createdIds]; exact ih _

/-- Claim C3: over any sequence of operations (creates with valid
payloads, interleaved with replace/update/delete), the ids returned by
the successful creates are strictly increasing in order of occurrence —
hence pairwise distinct, and never reused even after a delete frees an
id. -/
theorem c3_created_ids_strictly_increasing (ops : List Op) (s : Store)
    (h : createPayloadsValid ops = true) :
    List.Pairwise (· < ·) (createdIds ops s) :=
  createdIds_pairwise ops s

/-- Closed instance of the C3 theorem: create, delete, create again. -/
theorem c3_witness :
    createPayloadsValid
      [.create ⟨"Widget", none, 5, 1⟩, .delete 1, .create ⟨"Gadget", none, 7, 0⟩] = true ∧
    createdIds
      [.create ⟨"Widget", none, 5, 1⟩, .delete 1, .create ⟨"Gadget", none, 7, 0⟩]
      ⟨1, []⟩ = [1, 2] ∧
    List.Pairwise (· < ·)
      (createdIds
        [.create ⟨"Widget", none, 5, 1⟩, .delete 1, .create ⟨"Gadget", none, 7, 0⟩]
        ⟨1, []⟩) :=
  ⟨by decide, by decide,
   c3_created_ids_strictly_increasing
     [.create ⟨"Widget", none, 5, 1⟩, .delete 1, .create ⟨"Gadget", none, 7, 0⟩]
     ⟨1, []⟩ (by decide)⟩

theorem optFilter_eq_filter {α : Type} (p : α → Option Bool) (q : α → Bool)
    (l : List α) (h : ∀ a ∈ l, p a = some (q a)) :
    optFilter p l = some (l.filter q) := by
  induction l with
  | nil => rfl
  | cons a as ih =>
    have ha : p a = some (q a) := h a (List.mem_cons_self a as)
    have has : optFilter p as = some (as.filter q) :=
      ih (fun b hb => h b (List.mem_cons_of_mem a hb))
    rw [optFilter, ha, has, List.filter_cons]

theorem hasSub_nil (l : List Char) : hasSub [] l = true := by
  cases l with
  | nil => rfl
  | cons b bs => simp [hasSub, leadMatch]

theorem strContainsCI_empty (hay : String) : strContainsCI hay "" = true := by
  have h : ("".data.map Char.toLower) = [] := rfl
  rw [strContainsCI, h, hasSub_nil]

theorem validB_name_eq {it : Item} (h : it.validB = true) :
    it.name = some (specNameD it) := by
  rcases hn : it.name with _ | nm
  · simp [Item.validB, hn] at h
  · simp [specNameD, hn]

theorem validB_price_eq {it : Item} (h : it.validB = true) :
    it.price = some (specPriceD it) := by
  rcases hp : it.price with _ | pr
  · simp [Item.validB, hp] at h
  · simp [specPriceD, hp]

theorem validB_quantity_eq {it : Item} (h : it.validB = true) :
    it.quantity = some (specQtyD it) := by
  rcases hq : it.quantity with _ | q
  · simp [Item.validB, hq] at h
  · simp [specQtyD, hq]

theorem filterName_eq_spec (fn? : Option String) (items : List Item)
    (h : ∀ it ∈ items, it.validB = true) :
    filterName fn? items = some (specFilterName fn? items) := by
  cases fn? with
  | none => rfl
  | some fn =>
    by_cases he : fn = ""
    · subst he
      rw [filterName, if_pos rfl]
      rw [specFilterName]
      rw [List.filter_eq_self.mpr (fun a _ => strContainsCI_empty (specNameD a))]
    · rw [filterName, if_neg he, specFilterName]
      apply optFilter_eq_filter
      intro a ha
      rw [validB_name_eq (h a ha)]
      rfl

theorem filterMin_eq_spec (m? : Option ℚ) (items : List Item)
    (h : ∀ it ∈ items, it.validB = true) :
    filterMin m? items = some (specFilterMin m? items) := by
  cases m? with
  | none => rfl
  | some m =>
    rw [filterMin, specFilterMin]
    apply optFilter_eq_filter
    intro a ha
    rw [validB_price_eq (h a ha)]
    rfl

theorem filterMax_eq_spec (M? : Option ℚ) (items : List Item)
    (h : ∀ it ∈ items, it.validB = true) :
    filterMax M? items = some (specFilterMax M? items) := by
  cases M? with
  | none => rfl
  | some M =>
    rw [filterMax, specFilterMax]
    apply optFilter_eq_filter
    intro a ha
    rw [validB_price_eq (h a ha)]
    rfl

theorem filterStock_eq_spec (b? : Option Bool) (items : List Item)
    (h : ∀ it ∈ items, it.validB = true) :
    filterStock b? items = some (specFilterStock b? items) := by
  cases b? with
  | none => rfl
  | some b =>
    rw [filterStock, specFilterStock]
    apply optFilter_eq_filter
    intro a ha
    rw [validB_quantity_eq (h a ha)]
    rfl

theorem specFilterName_subset (fn? : Option String) (items : List Item) :
    ∀ a ∈ specFilterName fn? items, a ∈ items := by
  cases fn? with
  | none => intro a ha; exact ha
  | some fn => intro a ha; exact List.mem_of_mem_filter ha

theorem specFilterMin_subset (m? : Option ℚ) (items : List Item) :
    ∀ a ∈ specFilterMin m? items, a ∈ items := by
  cases m? with
  | none => intro a ha; exact ha
  | some m => intro a ha; exact List.mem_of_mem_filter ha

theorem specFilterMax_subset (M? : Option ℚ) (items : List Item) :
    ∀ a ∈ specFilterMax M? items, a ∈ items := by
  cases M? with
  | none => intro a ha; exact ha
  | some M => intro a ha; exact List.mem_of_mem_filter ha

/-- Claim C2: for every store whose items satisfy the data model, every
valid `ItemFilters` and every valid `PaginationParams`, the list operation
returns exactly the spec pipeline: name filter (case-insensitive
substring), then `min_price`, then `max_price`, then `in_stock`, then the
slice `[skip : skip+limit]` (empty or truncated without error). -/
theorem c2_get_items_matches_spec (s : Store) (f : ItemFilters)
    (pg : PaginationParams)
    (hval : ∀ it ∈ s.db.map Prod.snd, it.validB = true)
    (hf : f.validB = true) (hpg : pg.validB = true) :
    get_items pg f s = some (spec_apply (s.db.map Prod.snd) f pg) := by
  have hval1 : ∀ it ∈ specFilterName f.name (s.db.map Prod.snd), it.validB = true :=
    fun it h => hval it (specFilterName_subset _ _ it h)
  have hval2 : ∀ it ∈ specFilterMin f.min_price
      (specFilterName f.name (s.db.map Prod.snd)), it.validB = true :=
    fun it h => hval1 it (specFilterMin_subset _ _ it h)
  have hval3 : ∀ it ∈ specFilterMax f.max_price (specFilterMin f.min_price
      (specFilterName f.name (s.db.map Prod.snd))), it.validB = true :=
    fun it h => hval2 it (specFilterMax_subset _ _ it h)
  have h1 := filterName_eq_spec f.name _ hval
  have h2 := filterMin_eq_spec f.min_price _ hval1
  have h3 := filterMax_eq_spec f.max_price _ hval2
  have h4 := filterStock_eq_spec f.in_stock _ hval3
  simp only [get_items, spec_apply, h1, h2, h3, h4, Option.bind_eq_bind,
    Option.some_bind, Option.pure_def]

/-- Closed instance of the C2 theorem at a concrete store and filters. -/
theorem c2_witness :
    (∀ it ∈ (⟨3, [(1, ⟨1, some "Apple", none, some 5, some 0⟩),
                  (2, ⟨2, some "Banana", none, some 15, some 3⟩)]⟩ : Store).db.map
        Prod.snd, it.validB = true) ∧
    ItemFilters.validB ⟨none, some 10, none, some true⟩ = true ∧
    PaginationParams.validB ⟨0, 10⟩ = true ∧
    get_items ⟨0, 10⟩ ⟨none, some 10, none, some true⟩
        ⟨3, [(1, ⟨1, some "Apple", none, some 5, some 0⟩),
             (2, ⟨2, some "Banana", none, some 15, some 3⟩)]⟩ =
      some (spec_apply
        ((⟨3, [(1, ⟨1, some "Apple", none, some 5, some 0⟩),
               (2, ⟨2, some "Banana", none, some 15, some 3⟩)]⟩ : Store).db.map
          Prod.snd)
        ⟨none, some 10, none, some true⟩ ⟨0, 10⟩) :=
  ⟨by decide, by decide, by decide,
   c2_get_items_matches_spec
     ⟨3, [(1, ⟨1, some "Apple", none, some 5, some 0⟩),
          (2, ⟨2, some "Banana", none, some 15, some 3⟩)]⟩
     ⟨none, some 10, none, some true⟩ ⟨0, 10⟩ (by decide) (by decide) (by decide)⟩

end ItemApi
